import Mathlib

/-!
# BurkinaHeritage — verification of the RAG query pipeline

Shallow embedding of the query path of the BurkinaHeritage repository
(`backend/rag_simple.py` and `backend/main.py`) and proofs of the
specification claims about it.

Modelling conventions, used consistently below:

* Python strings are Lean `String`s; the Python operations used by the code
  (`str.lower`, `str.strip`, `in` (substring), slicing `[:n]`, `len`,
  `str.join`, `str.split()`, `re.split(r'[.!?]\s+', …)`) are defined here on
  the underlying character list (`String.data`), following Python's
  character-level semantics.  Python's `\s` / `str.strip` whitespace class is
  modelled by `Char.isWhitespace`, and `str.lower` by `Char.toLower`.
* The ChromaDB vector store is third-party and delegated: its similarity
  search is modelled as an opaque total function (`QueryOracle`) from the
  collection contents, the query text and `n_results` to a list of hits.
  ChromaDB's `collection.query` is a read-only call; accordingly the oracle
  takes the collection as input and the embedded methods thread the system
  state (`RAGState`) through explicitly so that frame properties are
  statable.  The `try/except` around the widened-search `collection.query`
  calls in `generate_answer_hf` is a no-op under a total oracle.
* The Gemini LLM call is modelled as an optional function from the prompt to
  `Except String String`: `.error e` is a raised exception with message `e`
  (`str(e)` in the source), `.ok t` is a successful response text.
* Timestamps and processing times returned by the HTTP layer are wall-clock
  values and are not modelled; the other response fields are.
-/

set_option maxRecDepth 100000

namespace BurkinaHeritage

/-! ## Python string primitives -/

/-- Python `str.strip()` on a character list: drop whitespace from both ends. -/
def stripList (l : List Char) : List Char :=
  ((l.dropWhile Char.isWhitespace).reverse.dropWhile Char.isWhitespace).reverse

/-- Python `str.strip()`. -/
def pyStrip (s : String) : String := ⟨stripList s.data⟩

/-- Python `str.lower()`. -/
def pyLower (s : String) : String := ⟨s.data.map Char.toLower⟩

/-- Python `needle in hay` on strings: contiguous substring test. -/
def pyContains (hay needle : String) : Bool := decide (needle.data <:+: hay.data)

/-- Python slicing `s[:n]`. -/
def pyTake (s : String) (n : Nat) : String := ⟨s.data.take n⟩

/-- Python `len(s)` (number of characters). -/
def pyLen (s : String) : Nat := s.data.length

/-- Python `sep.join(xs)`. -/
def pyJoin (sep : String) : List String → String
  | [] => ""
  | [x] => x
  | x :: y :: xs => x ++ sep ++ pyJoin sep (y :: xs)

/-- Helper for `pyWordCount`: count maximal non-whitespace runs. -/
def countWordsAux : Bool → List Char → Nat
  | _, [] => 0
  | inWord, c :: rest =>
    if Char.isWhitespace c then countWordsAux false rest
    else (if inWord then 0 else 1) + countWordsAux true rest

/-- Python `len(s.split())`: the number of whitespace-separated words. -/
def pyWordCount (s : String) : Nat := countWordsAux false s.data

/-- One of the sentence delimiters of `re.split(r'[.!?]\s+', …)`. -/
def isPunct (c : Char) : Bool := c == '.' || c == '!' || c == '?'

/-- Whether a character list starts with a whitespace character. -/
def headIsWS : List Char → Bool
  | [] => false
  | c :: _ => Char.isWhitespace c

/-- Python `re.split(r'[.!?]\s+', s)` on a character list: a delimiter is one
punctuation character followed by a maximal nonempty run of whitespace; the
pieces between delimiters are returned (the final punctuation of the string,
not followed by whitespace, stays in the last piece).  `acc` is the current
piece, reversed; `skipping` means the delimiter's whitespace run is being
consumed (the greedy `\s+`), during which `acc` is empty. -/
def reSplitGo (skipping : Bool) (acc : List Char) : List Char → List (List Char)
  | [] => [acc.reverse]
  | c :: rest =>
    if skipping && Char.isWhitespace c then reSplitGo true acc rest
    else if isPunct c && headIsWS rest then acc.reverse :: reSplitGo true [] rest
    else reSplitGo false (c :: acc) rest

/-- Python `re.split(r'[.!?]\s+', s)`. -/
def reSplitSentences (s : String) : List String :=
  (reSplitGo false [] s.data).map (fun l => ⟨l⟩)

/-- Python `s.endswith(('.', '!', '?'))`. -/
def endsWithPunct (s : String) : Bool :=
  match s.data.getLast? with
  | some c => isPunct c
  | none => false

/-! ## Data model

`rag_simple.py` loads a corpus of document chunks from `data/corpus.json`
(each with `id`, `title`, `content`, `source`, `category`, `word_count`,
as produced by the ingestion scripts) and indexes them in a ChromaDB
collection as `(id, document, metadata)` entries. -/

/-- The metadata stored with each indexed document and returned with each
search hit (`{"title": …, "source": …, "category": …}`). -/
structure DocMetadata where
  title : String
  source : String
  category : String
deriving DecidableEq, Repr

/-- One corpus document chunk, as read from `corpus.json`. -/
structure CorpusDoc where
  id : Nat
  title : String
  content : String
  source : String
  category : String
  wordCount : Nat
deriving DecidableEq, Repr

/-- One entry of the ChromaDB collection (`collection.add`). -/
structure IndexedDoc where
  id : String
  document : String
  metadata : DocMetadata
deriving DecidableEq, Repr

/-- One hit of a ChromaDB similarity search, as repackaged by the code:
`{"content": results['documents'][0][i], "metadata": results['metadatas'][0][i]}`. -/
structure SearchHit where
  content : String
  metadata : DocMetadata
deriving DecidableEq, Repr

/-- One conversation turn (`{"role": …, "content": …}`), supplied per request. -/
structure Msg where
  role : String
  content : String
deriving DecidableEq, Repr

/-- The system state owned by `BurkinaHeritageRAGSimple`: the loaded corpus
list (`self.corpus`) and the indexed collection (`self.collection`). -/
structure RAGState where
  corpus : List CorpusDoc
  collection : List IndexedDoc
deriving DecidableEq, Repr

/-- The delegated ChromaDB similarity search (`self.collection.query`): an
opaque total function of the collection contents, the query text and
`n_results`. -/
def QueryOracle := List IndexedDoc → String → Nat → List SearchHit

/-- The Gemini LLM call (`self.gemini_client.models.generate_content`):
prompt to response text, or a raised exception with message `str(e)`. -/
def GeminiClient := String → Except String String

/-- The external services the query path calls into. `gemini = none` models
`self.gemini_client = None` (no API key configured). -/
structure Env where
  queryFn : QueryOracle
  gemini : Option GeminiClient

/-- `__init__` corpus loading: at most 100 documents are kept
("OPTIMISATION ULTRA pour Render Free (512MB RAM): Limiter à 100 documents"). -/
def loadCorpus (fullCorpus : List CorpusDoc) : List CorpusDoc :=
  if fullCorpus.length > 100 then fullCorpus.take 100 else fullCorpus

/-- `_index_documents`: every corpus document is added to the collection as
`(f"doc_{doc['id']}", doc["content"], {title, source, category})`.  The
source processes the corpus in micro-batches of 10 purely as a memory
optimisation; the resulting collection contents are this map. -/
def indexDocuments (corpus : List CorpusDoc) : List IndexedDoc :=
  corpus.map (fun doc =>
    ⟨"doc_" ++ toString doc.id, doc.content, ⟨doc.title, doc.source, doc.category⟩⟩)

/-! ## `search_documents` -/

/-- The cultural keyword list of `search_documents`. -/
def cultural_keywords : List String :=
  ["griot", "balafon", "djembé", "kora", "musique", "danse", "tradition",
   "masque", "fespaco", "siao", "artisan", "tissage", "poterie", "bronze",
   "cérémonie", "rite", "ancêtre", "chef", "roi", "royaume", "ethnie",
   "mossi", "peul", "bobo", "lobi", "gourounsi", "touareg"]

/-- The architectural keyword list of `search_documents`. -/
def architectural_keywords : List String :=
  ["grenier", "case", "maison", "habitat", "construction", "architecture",
   "mosquée", "bâtiment", "édifice", "banco", "terre", "paille"]

/-- `any(kw in query_lower for kw in kws)`. -/
def containsAny (queryLower : String) (kws : List String) : Bool :=
  kws.any (fun kw => pyContains queryLower kw)

/-- The result-collection loop of `search_documents`: walk the raw hits in
order, skip hits whose metadata category is `'architecture'` when the query
prefers culture and not architecture, and stop as soon as `n_results`
documents have been collected. -/
def filterLoop (preferCulture preferArchitecture : Bool) (nResults : Nat) :
    List SearchHit → List SearchHit → List SearchHit
  | [], acc => acc
  | hit :: rest, acc =>
    if preferCulture && !preferArchitecture && (hit.metadata.category == "architecture") then
      filterLoop preferCulture preferArchitecture nResults rest acc
    else
      let acc2 := acc ++ [hit]
      if nResults ≤ acc2.length then acc2
      else filterLoop preferCulture preferArchitecture nResults rest acc2

/-- `BurkinaHeritageRAGSimple.search_documents(query, n_results)`: detect the
preferred categories from the lowercased query, fetch `min(n_results * 3, 15)`
raw hits when a preference exists (else `n_results`), filter and truncate.
The state is returned unchanged: the method only reads the collection. -/
def search_documents (env : Env) (st : RAGState) (query : String) (nResults : Nat) :
    List SearchHit × RAGState :=
  let queryLower := pyLower query
  let preferCulture := containsAny queryLower cultural_keywords
  let preferArchitecture := containsAny queryLower architectural_keywords
  let nFetch := if preferCulture || preferArchitecture then nResults * 3 else nResults
  let results := env.queryFn st.collection query (min nFetch 15)
  ((filterLoop preferCulture preferArchitecture nResults results []).take nResults, st)

/-! ## `_fallback_answer` -/

/-- The fixed no-information template of `_fallback_answer`. -/
def noInfoTemplate : String :=
  "Désolé, je n'ai pas trouvé d'information sur ce sujet dans ma base de données. Posez-moi des questions sur la culture, l'histoire, les traditions ou l'architecture du Burkina Faso."

/-- The contextual introduction chosen by `_fallback_answer` from the
question type. -/
def introFor (question : String) : String :=
  let questionLower := pyLower question
  let isWhatQuestion := containsAny questionLower ["qu'est-ce", "c'est quoi", "what is", "définition"]
  let isGeneralCulture := containsAny questionLower ["culture", "traditions", "patrimoine", "burkinab"]
  if isWhatQuestion then "Voici ce que je peux vous dire : "
  else if isGeneralCulture then "Concernant la culture burkinabè : "
  else ""

/-- The inner sentence loop of `_fallback_answer`: for each sentence of one
document, strip it, skip it when shorter than 25 characters or already
collected, stop the whole collection when adding it would exceed 250 words,
and stop after 4 collected sentences. Returns the collected sentences and
the running word total. -/
def addSentences (combined : List String) (totalWords : Nat) :
    List String → List String × Nat
  | [] => (combined, totalWords)
  | sentence :: rest =>
    let sentence := pyStrip sentence
    if pyLen sentence < 25 then addSentences combined totalWords rest
    else if combined.contains sentence then addSentences combined totalWords rest
    else
      let wordCount := pyWordCount sentence
      if 250 < totalWords + wordCount then (combined, totalWords)
      else
        let combined2 := combined ++ [sentence]
        if 4 ≤ combined2.length then (combined2, totalWords + wordCount)
        else addSentences combined2 (totalWords + wordCount) rest

/-- The outer document loop of `_fallback_answer`: walk the (at most 3) best
documents, split each nonempty stripped content into sentences, collect
sentences with `addSentences`, and stop once 250 words or 4 sentences are
reached. -/
def collectCombined : List SearchHit → List String → Nat → List String × Nat
  | [], combined, totalWords => (combined, totalWords)
  | doc :: rest, combined, totalWords =>
    let content := pyStrip doc.content
    if content = "" then collectCombined rest combined totalWords
    else
      let p := addSentences combined totalWords (reSplitSentences content)
      if 250 ≤ p.2 || 4 ≤ p.1.length then p
      else collectCombined rest p.1 p.2

/-- `BurkinaHeritageRAGSimple._fallback_answer(context_docs, question)`:
the no-LLM answer.  Empty context yields the fixed template; otherwise the
answer is assembled from the contents of the first three documents (joined
selected sentences, or a prefix of the first document's content when no
sentence qualifies), terminated with punctuation and capped at 600
characters. -/
def fallback_answer (contextDocs : List SearchHit) (question : String) : String :=
  match contextDocs with
  | [] => noInfoTemplate
  | first :: _ =>
    let bestDocs := contextDocs.take 3
    let intro := introFor question
    let combined := (collectCombined bestDocs [] 0).1
    if combined = [] then
      let firstContent := first.content
      if 400 < pyLen firstContent then intro ++ pyStrip (pyTake firstContent 400) ++ "..."
      else intro ++ firstContent
    else
      let answer := pyStrip (intro ++ pyJoin " " combined)
      let answer2 := if endsWithPunct answer then answer else answer ++ "."
      if 600 < pyLen answer2 then pyTake answer2 597 ++ "..." else answer2

/-! ## `_needs_database_search` and prompt construction -/

/-- The keyword list of `_needs_database_search`. -/
def keywords_requiring_search : List String :=
  ["griot", "balafon", "djembé", "kora", "musique", "danse", "tradition",
   "masque", "fespaco", "siao", "artisan", "tissage", "poterie", "bronze",
   "cérémonie", "rite", "ancêtre", "chef", "roi", "royaume", "ethnie",
   "mossi", "peul", "bobo", "lobi", "gourounsi", "touareg",
   "grenier", "case", "maison", "habitat", "construction", "architecture",
   "mosquée", "bâtiment", "édifice", "banco", "terre", "paille",
   "histoire", "indépendance", "thomas sankara", "sankara", "mogho naba",
   "empire", "colonial", "français", "guerre",
   "ouagadougou", "bobo-dioulasso", "banfora", "ville", "région",
   "qui est", "qu'est-ce que", "c'est quoi", "parle-moi de",
   "explique", "raconte", "définition", "signification"]

/-- `BurkinaHeritageRAGSimple._needs_database_search(question)`. -/
def needs_database_search (question : String) : Bool :=
  let questionLower := pyStrip (pyLower question)
  keywords_requiring_search.any (fun kw => pyContains questionLower kw)

/-- The history block of the prompt (`generate_answer_hf`): the last 6
messages before the current question, each as `role: content[:150]`.
Empty when the history has at most one message. -/
def buildHistoryText (history : List Msg) : String :=
  if 1 < history.length then
    let recentHistory := (history.drop (history.length - 7)).dropLast
    if recentHistory ≠ [] then
      pyJoin "\n" (recentHistory.map (fun msg =>
        (if msg.role == "user" then "Utilisateur" else "Assistant") ++ ": " ++
          pyTake msg.content 150))
    else ""
  else ""

/-- The context block of the prompt (`generate_answer_hf`): the first three
context documents, each truncated to its first 500 characters, as
`Document i+1:\n…` blocks joined by blank lines. -/
def buildContext (contextDocs : List SearchHit) : String :=
  pyJoin "\n\n" ((contextDocs.take 3).enum.map (fun p =>
    "Document " ++ toString (p.1 + 1) ++ ":\n" ++ pyTake p.2.content 500))

/-- The with-context, with-history prompt of `generate_answer_hf`. -/
def promptContextHistory (historyText context question : String) : String :=
  "Tu es un assistant expert sur le Burkina Faso (culture, histoire, traditions).\n\nHISTORIQUE DE LA CONVERSATION :\n" ++
  historyText ++
  "\n\nCONTEXTE TROUVÉ DANS MA BASE DE DONNÉES :\n" ++
  context ++
  "\n\nQUESTION DE L'UTILISATEUR : " ++
  question ++
  "\n\nTA MISSION :\n1. TIENS COMPTE de l'historique de conversation ci-dessus pour comprendre le contexte\n2. Utilise les informations du contexte de ma base de données comme BASE\n3. Reformule de manière claire et fluide (pas de copier-coller)\n4. Tu peux COMPLÉTER avec tes propres connaissances si nécessaire\n5. Si la question fait référence à quelque chose dans l'historique (comme \"elle\", \"il\", \"le SIAO\", etc.), utilise cet historique\n6. Réponds de manière naturelle et informative (2-4 phrases)\n\nIMPORTANT : Réponds de façon cohérente avec la conversation précédente.\n\nRÉPONSE (en français, naturelle et complète) :"

/-- The with-context, no-history prompt of `generate_answer_hf`. -/
def promptContextNoHistory (context question : String) : String :=
  "Tu es un assistant expert sur le Burkina Faso (culture, histoire, traditions).\n\nCONTEXTE TROUVÉ DANS MA BASE DE DONNÉES :\n" ++
  context ++
  "\n\nQUESTION DE L'UTILISATEUR : " ++
  question ++
  "\n\nTA MISSION :\n1. Utilise les informations du contexte ci-dessus comme BASE\n2. Reformule de manière claire et fluide (pas de copier-coller)\n3. Tu peux COMPLÉTER avec tes propres connaissances si nécessaire\n4. Tu peux CORRIGER si une information semble incorrecte\n5. Réponds de manière naturelle et informative (2-4 phrases)\n\nIMPORTANT : Même si le contexte ne répond pas parfaitement, utilise tes connaissances du Burkina Faso pour donner une réponse complète et utile.\n\nRÉPONSE (en français, naturelle et complète) :"

/-- The no-context, with-history prompt of `generate_answer_hf`. -/
def promptNoContextHistory (historyText question : String) : String :=
  "Tu es BurkinaHeritage, un assistant sympathique et expert sur le Burkina Faso.\n\nHISTORIQUE DE LA CONVERSATION :\n" ++
  historyText ++
  "\n\nQUESTION : " ++
  question ++
  "\n\nTA MISSION :\n- TIENS COMPTE de l'historique pour comprendre le contexte\n- Si la question fait référence à la conversation précédente, utilise cet historique\n- Si c'est une salutation → réponds chaleureusement\n- Si c'est une question sur le Burkina Faso → réponds avec tes connaissances\n- Reste naturel, sympathique et cohérent avec la conversation\n- Réponds en français (1-3 phrases)\n\nRÉPONSE (naturelle, sympathique et cohérente) :"

/-- The no-context, no-history prompt of `generate_answer_hf`. -/
def promptNoContextNoHistory (question : String) : String :=
  "Tu es BurkinaHeritage, un assistant sympathique et expert sur le Burkina Faso.\n\nQUESTION : " ++
  question ++
  "\n\nCONTEXTE : C'est une question conversationnelle ou aucune donnée spécifique n'est nécessaire.\n\nTA MISSION :\n- Si c'est une salutation (bonjour, salut, etc.) → réponds chaleureusement et brièvement\n- Si c'est une question sur toi → explique que tu es un assistant sur le Burkina Faso\n- Si c'est une question sur le Burkina Faso → réponds avec tes connaissances\n- Reste naturel, sympathique et concis (1-3 phrases)\n- Réponds en français\n\nRÉPONSE (naturelle et sympathique) :"

/-- The full prompt selection of `generate_answer_hf`: one of four templates,
chosen by whether context documents exist and whether a history block was
built. -/
def buildPrompt (question : String) (contextDocs : List SearchHit) (history : List Msg) :
    String :=
  let historyText := buildHistoryText history
  if 0 < contextDocs.length then
    let context := buildContext contextDocs
    if historyText ≠ "" then promptContextHistory historyText context question
    else promptContextNoHistory context question
  else
    if historyText ≠ "" then promptNoContextHistory historyText question
    else promptNoContextNoHistory question

/-! ## `generate_answer_hf` -/

/-- The error-notice classification of a Gemini exception message
(`generate_answer_hf`'s `except` branch). -/
def classifyGeminiError (errorStr : String) : String :=
  let errorLower := pyLower errorStr
  if pyContains errorStr "503" || pyContains errorLower "overloaded" then
    "⚠️ Le service d'IA est temporairement surchargé. Veuillez réessayer dans quelques instants."
  else if pyContains errorStr "429" || pyContains errorLower "quota" || pyContains errorLower "rate" then
    "⚠️ Limite d'utilisation atteinte. Veuillez réessayer dans quelques minutes."
  else if pyContains errorStr "401" || pyContains errorLower "unauthorized" || pyContains errorLower "api key" then
    "⚠️ Problème de configuration de l'API. Veuillez contacter l'administrateur."
  else if pyContains errorLower "network" || pyContains errorLower "connection" then
    "⚠️ Problème de connexion réseau. Veuillez vérifier votre connexion internet et réessayer."
  else
    "⚠️ Le service d'IA est temporairement indisponible. Veuillez réessayer ultérieurement."

/-- The Gemini attempt of `generate_answer_hf`: `(accepted answer?, error
notice?)`.  With no client nothing happens; a successful call is accepted
only when the stripped response has more than 30 characters (otherwise the
code falls through with no error notice); an exception is caught and mapped
to an error notice. -/
def geminiAttempt (client : Option GeminiClient) (prompt : String) :
    Option String × Option String :=
  match client with
  | none => (none, none)
  | some g =>
    match g prompt with
    | Except.ok text =>
      let answer := pyStrip text
      if answer ≠ "" ∧ 30 < pyLen answer then (some answer, none) else (none, none)
    | Except.error e => (none, some (classifyGeminiError e))

/-- The general search terms of the widened search in `generate_answer_hf`. -/
def general_terms : List String :=
  ["Burkina Faso culture traditions", "histoire Burkina Faso", "patrimoine burkinabè"]

/-- The widened search of `generate_answer_hf`'s no-context fallback: query
the collection with each general term (3 results each) and concatenate all
hits in order.  (The source's `if results …` guard and `try/except` only
skip empty or failed queries, which under a total oracle is appending
nothing.) -/
def expandedSearch (env : Env) (st : RAGState) : List SearchHit :=
  general_terms.foldl (fun acc term => acc ++ env.queryFn st.collection term 3) []

/-- The fixed apology of `generate_answer_hf` when even the widened search
finds nothing. -/
def apologyNoData : String :=
  "Désolé, je n'ai pas d'information sur ce sujet dans ma base de données. Posez-moi des questions sur la culture, l'histoire, les traditions, l'artisanat ou l'architecture du Burkina Faso. Par exemple : 'Qu'est-ce que le SIAO ?', 'Parle-moi du FESPACO', 'Qui est Thomas Sankara ?'"

/-- `BurkinaHeritageRAGSimple.generate_answer_hf(question, context_docs,
conversation_history)`: try Gemini on the built prompt; on failure fall back
to the template answer over the context (prefixed with the error notice when
Gemini raised), or, with no context, over the widened search results, or to
the fixed apology.  Total: every exception of the LLM call is caught.  The
state is returned unchanged (the widened search only reads the collection). -/
def generate_answer_hf (env : Env) (st : RAGState) (question : String)
    (contextDocs : List SearchHit) (history : List Msg) : String × RAGState :=
  let hasContext := 0 < contextDocs.length
  let prompt := buildPrompt question contextDocs history
  match geminiAttempt env.gemini prompt with
  | (some answer, _) => (answer, st)
  | (none, geminiErrorMessage) =>
    if hasContext then
      let fallbackAnswer := fallback_answer contextDocs question
      match geminiErrorMessage with
      | some msg =>
        (msg ++ "\n\nVoici les informations que j'ai trouvées dans ma base de données :\n\n" ++
          fallbackAnswer, st)
      | none => (fallbackAnswer, st)
    else
      let expandedDocs := expandedSearch env st
      if expandedDocs ≠ [] then
        let fallbackAnswer := fallback_answer (expandedDocs.take 5) question
        match geminiErrorMessage with
        | some msg =>
          (msg ++ "\n\nVoici des informations générales sur le Burkina Faso :\n\n" ++
            fallbackAnswer, st)
        | none => (fallbackAnswer, st)
      else
        match geminiErrorMessage with
        | some msg => (msg ++ "\n\n" ++ apologyNoData, st)
        | none => (apologyNoData, st)

/-! ## `ask` -/

/-- The simple greeting words handled before any search or LLM call. -/
def simple_greetings : List String :=
  ["bonjour", "salut", "bonsoir", "coucou", "hey", "hello", "hi"]

/-- The fixed greeting answer of `ask`. -/
def greetingAnswer : String :=
  "Bonjour ! 👋 Je suis BurkinaHeritage, votre assistant culturel sur le Burkina Faso. Comment puis-je vous aider aujourd'hui ? 😊"

/-- One cited source of an answer (`{"title": …, "source": …, "category": …}`). -/
structure SourceEntry where
  title : String
  source : String
  category : String
deriving DecidableEq, Repr

/-- The dictionary returned by `ask`. -/
structure AskResult where
  question : String
  answer : String
  sources : List SourceEntry
deriving DecidableEq, Repr

/-- `BurkinaHeritageRAGSimple.ask(question, use_llm, conversation_history)`:
greetings are answered directly with no sources; otherwise the database is
searched (5 results) when the question needs it, the answer is generated,
and up to 3 sources are cited and appended to the answer.  `use_llm` is
accepted and ignored by the source method. -/
def ask (env : Env) (st : RAGState) (question : String) (useLlm : Bool)
    (history : List Msg) : AskResult × RAGState :=
  let questionLower := pyStrip (pyLower question)
  if simple_greetings.contains questionLower ||
      simple_greetings.any (fun g => g == questionLower) then
    ({question := question, answer := greetingAnswer, sources := []}, st)
  else
    let needsDb := needs_database_search question
    let searched := if needsDb then search_documents env st question 5 else ([], st)
    let docs := searched.1
    let generated := generate_answer_hf env searched.2 question docs history
    let sources :=
      if needsDb ∧ docs ≠ [] then
        (docs.take 3).map (fun doc =>
          SourceEntry.mk doc.metadata.title doc.metadata.source doc.metadata.category)
      else []
    let answerWithSources := pyStrip generated.1
    let answerWithSources :=
      if sources ≠ [] then
        answerWithSources ++ "\n\n\n📚 Sources :\n\n" ++
          pyJoin "\n" (sources.map (fun s => "- " ++ s.source))
      else answerWithSources
    ({question := question, answer := answerWithSources, sources := sources}, generated.2)

/-! ## The HTTP layer (`main.py`)

`rag_system` is `none` before `startup_event` has initialised the RAG
system.  Endpoints that raise `HTTPException` are modelled with `Except`.
The `timestamp` and `processing_time_ms` response fields are wall-clock
values and are omitted from the model. -/

/-- A raised `HTTPException`. -/
structure HTTPError where
  statusCode : Nat
  detail : String
deriving DecidableEq, Repr

/-- The request body of `POST /api/chat` (defaults: `use_llm=False`,
`n_results=5`, empty history). -/
structure ChatRequest where
  question : String
  useLlm : Bool
  nResults : Nat
  conversationHistory : List Msg
deriving DecidableEq, Repr

/-- The response body of `POST /api/chat` (modelled fields). -/
structure ChatResponse where
  question : String
  answer : String
  sources : List SourceEntry
deriving DecidableEq, Repr

/-- The `chat` endpoint: 503 when the RAG system is not initialised, 400 when
the stripped question is shorter than 3 characters (`not request.question or
len(request.question.strip()) < 3`), otherwise the result of `ask` (note
that `request.n_results` is not forwarded to `ask`). -/
def chat (env : Env) (rag : Option RAGState) (req : ChatRequest) :
    Except HTTPError ChatResponse × Option RAGState :=
  match rag with
  | none => (Except.error ⟨503, "Système RAG non initialisé"⟩, none)
  | some st =>
    if req.question = "" ∨ pyLen (pyStrip req.question) < 3 then
      (Except.error ⟨400, "Question trop courte"⟩, some st)
    else
      let asked := ask env st req.question req.useLlm req.conversationHistory
      (Except.ok ⟨asked.1.question, asked.1.answer, asked.1.sources⟩, some asked.2)

/-- The response body of `GET /api/health`. -/
structure HealthResponse where
  status : String
  message : String
  ragInitialized : Bool
  totalDocuments : Nat
deriving DecidableEq, Repr

/-- The `health_check` endpoint: reports `len(rag_system.corpus)` when
initialised, 0 otherwise. -/
def health_check (rag : Option RAGState) : HealthResponse :=
  match rag with
  | some st => ⟨"healthy", "Système RAG opérationnel", true, st.corpus.length⟩
  | none => ⟨"error", "RAG non initialisé", false, 0⟩

/-- The response body of `GET /api/stats`. -/
structure StatsResponse where
  totalDocuments : Nat
  categories : List (String × Nat)
  sources : List String
deriving DecidableEq, Repr

/-- `categories[cat] = categories.get(cat, 0) + 1` on an insertion-ordered
association list (Python dict semantics). -/
def bumpCategory : List (String × Nat) → String → List (String × Nat)
  | [], cat => [(cat, 1)]
  | (k, v) :: rest, cat =>
    if k == cat then (k, v + 1) :: rest else (k, v) :: bumpCategory rest cat

/-- Insertion into a sorted list of strings (for Python `sorted`). -/
def insertSorted (x : String) : List String → List String
  | [] => [x]
  | y :: ys => if x < y then x :: y :: ys else y :: insertSorted x ys

/-- Python `sorted` on a list of strings (insertion sort; code-point order). -/
def sortStrings (l : List String) : List String := l.foldr insertSorted []

/-- The `get_stats` endpoint: 503 when uninitialised; otherwise count the
corpus categories, and collect the distinct nonempty `source.split(" - ")[0]`
prefixes, sorted (the Python `set` plus `sorted`). -/
def get_stats (rag : Option RAGState) : Except HTTPError StatsResponse :=
  match rag with
  | none => Except.error ⟨503, "Système RAG non initialisé"⟩
  | some st =>
    let categories := st.corpus.foldl (fun m doc => bumpCategory m doc.category) []
    let sourcesList := st.corpus.foldl (fun acc doc =>
      let source := (doc.source.splitOn " - ").headD ""
      if source ≠ "" ∧ ¬ acc.contains source then acc ++ [source] else acc) []
    Except.ok ⟨st.corpus.length, categories, sortStrings sourcesList⟩

/-- The response body of `DELETE /api/clear`. -/
structure ClearResponse where
  status : String
  message : String
deriving DecidableEq, Repr

/-- The `clear_conversation` endpoint: a fixed success response, touching no
state (the endpoint exists for frontend compatibility; conversation history
lives only in the callers' requests). -/
def clear_conversation (rag : Option RAGState) : ClearResponse × Option RAGState :=
  (⟨"success", "Historique effacé"⟩, rag)

/-! ## Supporting lemmas on the string primitives -/

theorem mem_dropWhile_of_not {α : Type} (p : α → Bool) {l : List α} {c : α}
    (hc : c ∈ l) (hp : ¬ p c = true) : c ∈ l.dropWhile p := by
  have h2 : c ∈ l.takeWhile p ++ l.dropWhile p := by
    rw [List.takeWhile_append_dropWhile]; exact hc
  rcases List.mem_append.mp h2 with h | h
  · exact absurd (List.mem_takeWhile_imp h) hp
  · exact h

theorem stripList_ne_nil {l : List Char} {c : Char} (hc : c ∈ l)
    (hw : ¬ c.isWhitespace = true) : stripList l ≠ [] := by
  unfold stripList
  simp only [ne_eq, List.reverse_eq_nil_iff]
  exact List.ne_nil_of_mem
    (mem_dropWhile_of_not _ (List.mem_reverse.mpr (mem_dropWhile_of_not _ hc hw)) hw)

theorem pyStrip_ne_empty {s : String} {c : Char} (hc : c ∈ s.data)
    (hw : ¬ c.isWhitespace = true) : pyStrip s ≠ "" := by
  intro h
  exact stripList_ne_nil hc hw (congrArg String.data h)

theorem head?_dropWhile_not {α : Type} (p : α → Bool) :
    ∀ {l : List α} {c : α}, (l.dropWhile p).head? = some c → ¬ p c = true := by
  intro l
  induction l with
  | nil => intro c h; simp [List.dropWhile] at h
  | cons a t ih =>
    intro c h
    by_cases hp : p a = true
    · rw [List.dropWhile_cons_of_pos hp] at h; exact ih h
    · rw [List.dropWhile_cons_of_neg hp] at h
      obtain rfl : a = c := by simpa using h
      exact hp

theorem getLast?_of_suffix {α : Type} {l₁ l₂ : List α} (h : l₁ <:+ l₂) (hne : l₁ ≠ []) :
    l₁.getLast? = l₂.getLast? := by
  obtain ⟨t, rfl⟩ := h
  exact (List.getLast?_append_of_ne_nil t hne).symm

theorem stripList_head?_eq {x : Char} {t : List Char} (hx : ¬ x.isWhitespace = true) :
    (stripList (x :: t)).head? = some x := by
  unfold stripList
  rw [List.dropWhile_cons_of_neg hx, List.head?_reverse]
  have hne : (x :: t).reverse.dropWhile Char.isWhitespace ≠ [] := by
    intro h
    exact hx (List.dropWhile_eq_nil_iff.mp h x (List.mem_reverse.mpr (List.mem_cons_self x t)))
  rw [getLast?_of_suffix (List.dropWhile_suffix _) hne, List.getLast?_reverse]
  rfl

theorem stripList_head?_not_ws {l : List Char} {c : Char}
    (h : (stripList l).head? = some c) : ¬ c.isWhitespace = true := by
  unfold stripList at h
  rw [List.head?_reverse] at h
  have hne : (l.dropWhile Char.isWhitespace).reverse.dropWhile Char.isWhitespace ≠ [] := by
    intro hnil; rw [hnil] at h; simp at h
  rw [getLast?_of_suffix (List.dropWhile_suffix _) hne, List.getLast?_reverse] at h
  exact head?_dropWhile_not _ h

theorem stripList_infix_self (l : List Char) : stripList l <:+: l := by
  unfold stripList
  have h1 : l.dropWhile Char.isWhitespace <:+ l := List.dropWhile_suffix _
  have h2 : (l.dropWhile Char.isWhitespace).reverse.dropWhile Char.isWhitespace <:+
      (l.dropWhile Char.isWhitespace).reverse := List.dropWhile_suffix _
  have h3 : ((l.dropWhile Char.isWhitespace).reverse.dropWhile Char.isWhitespace).reverse <+:
      l.dropWhile Char.isWhitespace := by
    rw [← List.reverse_suffix]
    simpa using h2
  exact h3.isInfix.trans h1.isInfix

/-! ## Frame lemmas: the query path never writes the state -/

theorem search_documents_state (env : Env) (st : RAGState) (q : String) (n : Nat) :
    (search_documents env st q n).2 = st := rfl

theorem generate_answer_hf_state (env : Env) (st : RAGState) (q : String)
    (cds : List SearchHit) (hist : List Msg) :
    (generate_answer_hf env st q cds hist).2 = st := by
  unfold generate_answer_hf
  rcases geminiAttempt env.gemini (buildPrompt q cds hist) with ⟨a, e⟩
  cases a <;> cases e <;> dsimp only <;> repeat' split
  all_goals rfl

theorem ask_state (env : Env) (st : RAGState) (q : String) (u : Bool) (hist : List Msg) :
    (ask env st q u hist).2 = st := by
  unfold ask
  dsimp only
  split
  · rfl
  · rw [generate_answer_hf_state]
    by_cases hdb : needs_database_search q = true
    · rw [if_pos hdb]; exact search_documents_state ..
    · rw [if_neg hdb]

/-! ## The claims -/

/-- C5: conversation history is per-request and never persisted: the
history-clear endpoint returns a fixed success response and leaves the
system state (initialised or not) exactly as it was, and `ask` consumes the
caller-supplied history while returning the system state unchanged (the
state holds no history at all: it is only the corpus and the collection). -/
theorem history_not_persisted :
    ∀ (rag : Option RAGState) (env : Env) (st : RAGState) (q : String) (u : Bool)
      (hist : List Msg),
      clear_conversation rag = (⟨"success", "Historique effacé"⟩, rag) ∧
      (clear_conversation rag).2 = rag ∧
      (ask env st q u hist).2 = st := by
  intro rag env st q u hist
  exact ⟨rfl, rfl, ask_state env st q u hist⟩

/-- C6: the query path is read-only: `search_documents`,
`generate_answer_hf` and `ask` all return the system state unchanged, so the
loaded corpus list and the indexed collection are identical before and after
every call (`_fallback_answer` takes no state at all). -/
theorem query_path_readonly :
    ∀ (env : Env) (st : RAGState) (q : String) (n : Nat) (cds : List SearchHit)
      (u : Bool) (hist : List Msg),
      (search_documents env st q n).2 = st ∧
      (generate_answer_hf env st q cds hist).2 = st ∧
      (ask env st q u hist).2 = st ∧
      (ask env st q u hist).2.corpus = st.corpus ∧
      (ask env st q u hist).2.collection = st.collection := by
  intro env st q n cds u hist
  refine ⟨rfl, generate_answer_hf_state .., ask_state .., ?_, ?_⟩ <;>
    rw [ask_state]

/-- C8: the corpus loaded at initialisation is capped at 100 documents:
`loadCorpus` keeps exactly the first 100 documents of the corpus file (which
is the whole file when it is no longer), so the `total_documents` reported
by the health and stats endpoints never exceeds 100. -/
theorem corpus_capped_at_100 :
    ∀ (fullCorpus : List CorpusDoc) (coll : List IndexedDoc),
      loadCorpus fullCorpus = fullCorpus.take 100 ∧
      (loadCorpus fullCorpus).length ≤ 100 ∧
      (health_check (some ⟨loadCorpus fullCorpus, coll⟩)).totalDocuments ≤ 100 ∧
      ∃ stats, get_stats (some ⟨loadCorpus fullCorpus, coll⟩) = Except.ok stats ∧
        stats.totalDocuments ≤ 100 := by
  intro fullCorpus coll
  have htake : loadCorpus fullCorpus = fullCorpus.take 100 := by
    unfold loadCorpus
    split
    · rfl
    · exact (List.take_of_length_le (by omega)).symm
  have hlen : (loadCorpus fullCorpus).length ≤ 100 := by
    rw [htake, List.length_take]
    exact Nat.min_le_left ..
  refine ⟨htake, hlen, hlen, ⟨_, rfl, hlen⟩⟩

/-- C9: the chat endpoint rejects every request whose question strips to
fewer than 3 characters with HTTP 400, returning the error (and the
unchanged state) instead of any answer: `ask` is not reached. -/
theorem chat_rejects_short_question :
    ∀ (env : Env) (st : RAGState) (req : ChatRequest),
      pyLen (pyStrip req.question) < 3 →
      chat env (some st) req = (Except.error ⟨400, "Question trop courte"⟩, some st) := by
  intro env st req h
  simp only [chat]
  rw [if_pos (Or.inr h)]

/-- C9 witness: the request "ab" (2 characters) is rejected with 400. -/
theorem chat_rejects_short_question_witness :
    pyLen (pyStrip "ab") < 3 ∧
    chat ⟨fun _ _ _ => [], none⟩ (some ⟨[], []⟩) ⟨"ab", false, 5, []⟩ =
      (Except.error ⟨400, "Question trop courte"⟩, some ⟨[], []⟩) :=
  ⟨by decide, chat_rejects_short_question ⟨fun _ _ _ => [], none⟩ ⟨[], []⟩
    ⟨"ab", false, 5, []⟩ (by decide)⟩

/-- C10: a question that lowercases and strips to one of the simple greeting
words is answered directly by `ask` with the fixed greeting text and no
sources, for every environment and state alike — in particular no database
search and no LLM call contributes to the result. -/
theorem ask_greeting_direct :
    ∀ (env : Env) (st : RAGState) (u : Bool) (hist : List Msg) (q : String),
      pyStrip (pyLower q) ∈ simple_greetings →
      ask env st q u hist = ({question := q, answer := greetingAnswer, sources := []}, st) := by
  intro env st u hist q hmem
  unfold ask
  dsimp only
  have hc : simple_greetings.contains (pyStrip (pyLower q)) = true := by
    simp [List.contains_iff_exists_mem_beq]
    exact hmem
  rw [if_pos (by rw [hc]; exact Bool.true_or _)]

/-- C10 witness: "  Bonjour " is a greeting and is answered directly with
empty sources under a concrete environment. -/
theorem ask_greeting_direct_witness :
    pyStrip (pyLower "  Bonjour ") ∈ simple_greetings ∧
    ask ⟨fun _ _ _ => [], none⟩ ⟨[], []⟩ "  Bonjour " true [] =
      ({question := "  Bonjour ", answer := greetingAnswer, sources := []}, ⟨[], []⟩) :=
  ⟨by decide, ask_greeting_direct ⟨fun _ _ _ => [], none⟩ ⟨[], []⟩ true [] "  Bonjour "
    (by decide)⟩

/-- Every document collected by `filterLoop` with culture preferred and
architecture not preferred has a category other than `'architecture'`,
provided the accumulator already satisfies this. -/
theorem filterLoop_excludes (n : Nat) :
    ∀ (hits acc : List SearchHit),
      (∀ h ∈ acc, h.metadata.category ≠ "architecture") →
      ∀ h ∈ filterLoop true false n hits acc, h.metadata.category ≠ "architecture" := by
  intro hits
  induction hits with
  | nil =>
    intro acc hacc h hh
    exact hacc h (by simpa [filterLoop] using hh)
  | cons hit rest ih =>
    intro acc hacc h hh
    unfold filterLoop at hh
    dsimp only at hh
    by_cases hcat : (true && !false && (hit.metadata.category == "architecture")) = true
    · rw [if_pos hcat] at hh
      exact ih acc hacc h hh
    · rw [if_neg hcat] at hh
      have hhit : hit.metadata.category ≠ "architecture" := by
        simpa using hcat
      have hacc2 : ∀ x ∈ acc ++ [hit], x.metadata.category ≠ "architecture" := by
        intro x hx
        rcases List.mem_append.mp hx with h1 | h1
        · exact hacc x h1
        · obtain rfl : x = hit := by simpa using h1
          exact hhit
      by_cases hlen : n ≤ (acc ++ [hit]).length
      · rw [if_pos hlen] at hh; exact hacc2 h hh
      · rw [if_neg hlen] at hh; exact ih _ hacc2 h hh

/-- C2: for every query that contains at least one cultural keyword and no
architectural keyword (substring tests on the lowercased query, as the code
performs them), every document returned by `search_documents` has a category
other than `'architecture'`. -/
theorem search_documents_excludes_architecture :
    ∀ (env : Env) (st : RAGState) (q : String) (n : Nat),
      containsAny (pyLower q) cultural_keywords = true →
      containsAny (pyLower q) architectural_keywords = false →
      ∀ hit ∈ (search_documents env st q n).1, hit.metadata.category ≠ "architecture" := by
  intro env st q n hc ha hit hmem
  unfold search_documents at hmem
  dsimp only at hmem
  rw [hc, ha] at hmem
  exact filterLoop_excludes n _ [] (by intro x hx; cases hx) hit
    (List.mem_of_mem_take hmem)

/-- C2 witness: the query "Qui sont les griots ?" prefers culture and not
architecture, and with an oracle returning one architecture hit and one
culture hit the returned documents carry no architecture category. -/
theorem search_documents_excludes_architecture_witness :
    containsAny (pyLower "Qui sont les griots ?") cultural_keywords = true ∧
    containsAny (pyLower "Qui sont les griots ?") architectural_keywords = false ∧
    ∀ hit ∈ (search_documents
        ⟨fun _ _ _ => [⟨"c1", ⟨"t1", "s1", "architecture"⟩⟩, ⟨"c2", ⟨"t2", "s2", "culture"⟩⟩], none⟩
        ⟨[], []⟩ "Qui sont les griots ?" 3).1,
      hit.metadata.category ≠ "architecture" :=
  ⟨by decide, by decide,
    search_documents_excludes_architecture
      ⟨fun _ _ _ => [⟨"c1", ⟨"t1", "s1", "architecture"⟩⟩, ⟨"c2", ⟨"t2", "s2", "culture"⟩⟩], none⟩
      ⟨[], []⟩ "Qui sont les griots ?" 3 (by decide) (by decide)⟩

/-- Truncating each of the first three context documents to its first 500
characters does not change the prompt's context block: the block already
uses only those prefixes. -/
theorem buildContext_trunc (cds : List SearchHit) :
    buildContext ((cds.take 3).map (fun d => ⟨pyTake d.content 500, d.metadata⟩)) =
      buildContext cds := by
  unfold buildContext
  congr 1
  rw [List.take_of_length_le
    (by rw [List.length_map, List.length_take]; exact Nat.min_le_left ..)]
  rw [List.enum_map, List.map_map]
  apply List.map_congr_left
  intro p _
  cases p with
  | mk i d =>
    show "Document " ++ toString (i + 1) ++ ":\n" ++ pyTake (pyTake d.content 500) 500 = _
    simp [pyTake, List.take_take]

/-- C3: `search_documents` returns at most `n_results` documents, and the
prompt built by `generate_answer_hf` uses at most the first 3 context
documents, each truncated to its first 500 characters: replacing the context
list by its first three 500-character-truncated documents yields the same
prompt. -/
theorem search_count_and_prompt_truncation :
    ∀ (env : Env) (st : RAGState) (q : String) (n : Nat) (q2 : String)
      (cds : List SearchHit) (hist : List Msg),
      (search_documents env st q n).1.length ≤ n ∧
      buildPrompt q2 cds hist =
        buildPrompt q2 ((cds.take 3).map (fun d => ⟨pyTake d.content 500, d.metadata⟩)) hist := by
  intro env st q n q2 cds hist
  constructor
  · unfold search_documents
    dsimp only
    rw [List.length_take]
    exact Nat.min_le_left ..
  · have hlen : 0 < ((cds.take 3).map
        (fun d => SearchHit.mk (pyTake d.content 500) d.metadata)).length ↔ 0 < cds.length := by
      simp only [List.length_map, List.length_take]
      omega
    unfold buildPrompt
    dsimp only
    by_cases h : 0 < cds.length
    · rw [if_pos h, if_pos (hlen.mpr h)]
      by_cases hh : buildHistoryText hist ≠ ""
      · rw [buildContext_trunc, if_pos hh]
      · rw [buildContext_trunc, if_neg hh]
    · rw [if_neg h, if_neg (fun hcon => h (hlen.mp hcon))]

/-- C4: when the Gemini call raises an exception, `generate_answer_hf`
catches it and returns a template fallback string (it is a total function of
the modelled exception, nothing propagates): with context, the fallback
answer built from the context documents prefixed with the classified error
notice; with no context and an empty widened search, the fixed apology
template prefixed with the same notice. -/
theorem generate_answer_hf_catches_llm_error :
    ∀ (env : Env) (st : RAGState) (q : String) (cds : List SearchHit) (hist : List Msg)
      (g : GeminiClient) (e : String),
      env.gemini = some g →
      g (buildPrompt q cds hist) = Except.error e →
      (cds ≠ [] →
        (generate_answer_hf env st q cds hist).1 =
          classifyGeminiError e ++
            "\n\nVoici les informations que j'ai trouvées dans ma base de données :\n\n" ++
            fallback_answer cds q) ∧
      (cds = [] → expandedSearch env st = [] →
        (generate_answer_hf env st q cds hist).1 =
          classifyGeminiError e ++ "\n\n" ++ apologyNoData) := by
  intro env st q cds hist g e hg he
  have hG : geminiAttempt env.gemini (buildPrompt q cds hist) =
      (none, some (classifyGeminiError e)) := by
    rw [hg]
    unfold geminiAttempt
    dsimp only
    rw [he]
  constructor
  · intro hne
    unfold generate_answer_hf
    dsimp only
    rw [hG]
    dsimp only
    rw [if_pos (List.length_pos.mpr hne)]
  · intro hnil hexp
    subst hnil
    unfold generate_answer_hf
    dsimp only
    rw [hG]
    dsimp only
    rw [if_neg (by simp)]
    rw [hexp]
    rw [if_neg (by simp)]

/-- C4 witness: with a Gemini client that always raises "boom" and an empty
oracle, the with-context and no-context results are exactly the error-notice
prefixed fallback and apology. -/
theorem generate_answer_hf_catches_llm_error_witness :
    (generate_answer_hf ⟨fun _ _ _ => [], some (fun _ => Except.error "boom")⟩ ⟨[], []⟩
        "q" [⟨"contenu", ⟨"t", "s", "c"⟩⟩] []).1 =
      classifyGeminiError "boom" ++
        "\n\nVoici les informations que j'ai trouvées dans ma base de données :\n\n" ++
        fallback_answer [⟨"contenu", ⟨"t", "s", "c"⟩⟩] "q" ∧
    (generate_answer_hf ⟨fun _ _ _ => [], some (fun _ => Except.error "boom")⟩ ⟨[], []⟩
        "q" [] []).1 =
      classifyGeminiError "boom" ++ "\n\n" ++ apologyNoData :=
  ⟨(generate_answer_hf_catches_llm_error ⟨fun _ _ _ => [], some (fun _ => Except.error "boom")⟩
      ⟨[], []⟩ "q" [⟨"contenu", ⟨"t", "s", "c"⟩⟩] [] (fun _ => Except.error "boom") "boom"
      rfl rfl).1 (List.cons_ne_nil _ _),
   (generate_answer_hf_catches_llm_error ⟨fun _ _ _ => [], some (fun _ => Except.error "boom")⟩
      ⟨[], []⟩ "q" [] [] (fun _ => Except.error "boom") "boom"
      rfl rfl).2 rfl rfl⟩

/-! ## Non-emptiness of every answer (toward C1) -/

theorem ne_empty_of_mem_data {s : String} {c : Char} (h : c ∈ s.data) : s ≠ "" := by
  intro hs
  rw [hs] at h
  exact (List.not_mem_nil c) h

theorem mem_of_getLast?_eq {α : Type} {l : List α} {a : α} (h : l.getLast? = some a) :
    a ∈ l := by
  obtain ⟨hne, rfl⟩ := List.mem_getLast?_eq_getLast (by rw [h]; exact rfl)
  exact List.getLast_mem hne

theorem punct_not_ws {c : Char} (h : isPunct c = true) : ¬ c.isWhitespace = true := by
  rcases (by simpa [isPunct] using h : (c = '.' ∨ c = '!') ∨ c = '?') with (rfl | rfl) | rfl <;>
    decide

theorem exists_nonws_of_pyStrip_ne {s : String} (h : pyStrip s ≠ "") :
    ∃ c ∈ s.data, ¬ c.isWhitespace = true := by
  by_contra hcon
  push_neg at hcon
  apply h
  show String.mk (stripList s.data) = ""
  have hall : s.data.dropWhile Char.isWhitespace = [] :=
    List.dropWhile_eq_nil_iff.mpr (fun c hc => by simpa using hcon c hc)
  unfold stripList
  rw [hall]
  rfl

/-- A `geminiAttempt` that accepts an answer accepts a stripped nonempty one,
whose first character is not whitespace. -/
theorem geminiAttempt_some {client : Option GeminiClient} {prompt ans : String}
    {m : Option String} (h : geminiAttempt client prompt = (some ans, m)) :
    ∃ c ∈ ans.data, ¬ c.isWhitespace = true := by
  unfold geminiAttempt at h
  cases client with
  | none => exact absurd h (by simp)
  | some g =>
    dsimp only at h
    cases hr : g prompt with
    | ok text =>
      rw [hr] at h
      dsimp only at h
      split at h
      case isTrue hguard =>
        have hans : ans = pyStrip text := by
          have := congrArg Prod.fst h
          simpa using this.symm
        have hsl : stripList text.data ≠ [] := by
          intro hh
          exact hguard.1 (String.ext (by simpa [pyStrip] using hh))
        cases hsl' : stripList text.data with
        | nil => exact absurd hsl' hsl
        | cons c t =>
          refine ⟨c, ?_, stripList_head?_not_ws (l := text.data) (by rw [hsl']; rfl)⟩
          rw [hans]
          show c ∈ stripList text.data
          rw [hsl']
          exact List.mem_cons_self c t
      case isFalse => exact absurd h (by simp)
    | error e =>
      rw [hr] at h
      exact absurd h (by simp)

/-- Every hit of the widened search came out of one oracle query. -/
theorem expandedSearch_mem {env : Env} {st : RAGState} {hit : SearchHit}
    (h : hit ∈ expandedSearch env st) :
    ∃ term, hit ∈ env.queryFn st.collection term 3 := by
  unfold expandedSearch general_terms at h
  simp only [List.foldl] at h
  rw [List.nil_append] at h
  rcases List.mem_append.mp h with h1 | h1
  · rcases List.mem_append.mp h1 with h2 | h2
    · exact ⟨_, h2⟩
    · exact ⟨_, h2⟩
  · exact ⟨_, h1⟩

/-- The fallback answer on a nonempty context whose first document has some
non-whitespace content character itself contains a non-whitespace
character. -/
theorem fallback_has_nonws (first : SearchHit) (rest : List SearchHit) (q : String)
    (hfirst : ∃ c ∈ first.content.data, ¬ c.isWhitespace = true) :
    ∃ c ∈ (fallback_answer (first :: rest) q).data, ¬ c.isWhitespace = true := by
  unfold fallback_answer
  dsimp only
  by_cases hcomb : (collectCombined ((first :: rest).take 3) [] 0).1 = []
  · rw [if_pos hcomb]
    by_cases hlen2 : 400 < pyLen first.content
    · rw [if_pos hlen2]
      refine ⟨'.', ?_, by decide⟩
      rw [String.data_append]
      exact List.mem_append.mpr (Or.inr (show '.' ∈ ("..." : String).data by decide))
    · rw [if_neg hlen2]
      obtain ⟨c, hc, hw⟩ := hfirst
      refine ⟨c, ?_, hw⟩
      rw [String.data_append]
      exact List.mem_append.mpr (Or.inr hc)
  · rw [if_neg hcomb]
    by_cases hend : endsWithPunct
        (pyStrip (introFor q ++ pyJoin " " (collectCombined ((first :: rest).take 3) [] 0).1)) = true
    · rw [if_pos hend]
      unfold endsWithPunct at hend
      cases hlast : (pyStrip (introFor q ++
          pyJoin " " (collectCombined ((first :: rest).take 3) [] 0).1)).data.getLast? with
      | none => rw [hlast] at hend; exact absurd hend (by simp)
      | some c0 =>
        rw [hlast] at hend
        dsimp only at hend
        have hc0mem := mem_of_getLast?_eq hlast
        have hc0nw := punct_not_ws hend
        split
        · refine ⟨'.', ?_, by decide⟩
          rw [String.data_append]
          exact List.mem_append.mpr (Or.inr (show '.' ∈ ("..." : String).data by decide))
        · exact ⟨c0, hc0mem, hc0nw⟩
    · rw [if_neg hend]
      split
      · refine ⟨'.', ?_, by decide⟩
        rw [String.data_append]
        exact List.mem_append.mpr (Or.inr (show '.' ∈ ("..." : String).data by decide))
      · refine ⟨'.', ?_, by decide⟩
        rw [String.data_append]
        exact List.mem_append.mpr (Or.inr (show '.' ∈ ("." : String).data by decide))

/-- With no context documents, the answer produced by `generate_answer_hf`
contains a non-whitespace character, provided the oracle never returns a hit
with whitespace-only content. -/
theorem generate_nonws (env : Env) (st : RAGState) (q : String) (hist : List Msg)
    (Hor : ∀ (coll : List IndexedDoc) (qr : String) (k : Nat) (hit : SearchHit),
      hit ∈ env.queryFn coll qr k → pyStrip hit.content ≠ "") :
    ∃ c ∈ (generate_answer_hf env st q [] hist).1.data, ¬ c.isWhitespace = true := by
  unfold generate_answer_hf
  dsimp only
  rcases hG : geminiAttempt env.gemini (buildPrompt q [] hist) with ⟨a, m⟩
  cases a with
  | some ans =>
    dsimp only
    exact geminiAttempt_some hG
  | none =>
    dsimp only
    rw [if_neg (by simp)]
    by_cases hexp : expandedSearch env st ≠ []
    · rw [if_pos hexp]
      obtain ⟨first, rest, hfr⟩ := List.exists_cons_of_ne_nil hexp
      have hfmem : first ∈ expandedSearch env st := by
        rw [hfr]; exact List.mem_cons_self first rest
      obtain ⟨term, hmem⟩ := expandedSearch_mem hfmem
      have hfirstNW : ∃ c ∈ first.content.data, ¬ c.isWhitespace = true :=
        exists_nonws_of_pyStrip_ne (Hor _ _ _ _ hmem)
      rw [hfr]
      cases m with
      | some msg =>
        dsimp only
        refine ⟨'V', ?_, by decide⟩
        rw [String.data_append, String.data_append]
        exact List.mem_append.mpr (Or.inl (List.mem_append.mpr (Or.inr
          (show 'V' ∈ ("\n\nVoici des informations générales sur le Burkina Faso :\n\n" :
            String).data by decide))))
      | none =>
        dsimp only
        exact fallback_has_nonws first (rest.take 4) q hfirstNW
    · rw [if_neg hexp]
      cases m with
      | some msg =>
        dsimp only
        refine ⟨'D', ?_, by decide⟩
        rw [String.data_append]
        exact List.mem_append.mpr (Or.inr (show 'D' ∈ apologyNoData.data by decide))
      | none =>
        dsimp only
        exact ⟨'D', by decide, by decide⟩

/-- The sources list cited by `ask` never exceeds 3 entries. -/
theorem sources_length_le (cond : Prop) [Decidable cond] (docs : List SearchHit) :
    (if cond then
        (docs.take 3).map (fun doc =>
          SourceEntry.mk doc.metadata.title doc.metadata.source doc.metadata.category)
      else []).length ≤ 3 := by
  split
  · rw [List.length_map, List.length_take]
    exact Nat.min_le_left ..
  · decide

/-- The final answer assembly of `ask`: the stripped generated answer, with
the sources block appended when sources exist, is never empty when the
generated answer holds a non-whitespace character in the sourceless case. -/
theorem assemble_ne (G : String) (S : List SourceEntry)
    (hG : S = [] → ∃ c ∈ G.data, ¬ c.isWhitespace = true) :
    (if S ≠ [] then
        pyStrip G ++ "\n\n\n📚 Sources :\n\n" ++ pyJoin "\n" (S.map (fun s => "- " ++ s.source))
      else pyStrip G) ≠ "" := by
  split
  · apply ne_empty_of_mem_data (c := '📚')
    rw [String.data_append, String.data_append]
    exact List.mem_append.mpr (Or.inl (List.mem_append.mpr (Or.inr
      (show '📚' ∈ ("\n\n\n📚 Sources :\n\n" : String).data by decide))))
  · next hS =>
    obtain ⟨c, hc, hw⟩ := hG (not_not.mp hS)
    exact pyStrip_ne_empty hc hw

/-- C1: for every question (and any conversation history and LLM behaviour),
`ask` returns a non-empty answer string together with a list of at most 3
cited sources, provided the vector-store oracle never returns a hit whose
content strips to the empty string (the ingestion scripts only produce
chunks with real text). -/
theorem ask_answer_nonempty :
    ∀ (env : Env) (st : RAGState) (q : String) (u : Bool) (hist : List Msg),
      (∀ (coll : List IndexedDoc) (qr : String) (k : Nat) (hit : SearchHit),
        hit ∈ env.queryFn coll qr k → pyStrip hit.content ≠ "") →
      (ask env st q u hist).1.answer ≠ "" ∧ (ask env st q u hist).1.sources.length ≤ 3 := by
  intro env st q u hist Hor
  unfold ask
  dsimp only
  split
  · constructor
    · show greetingAnswer ≠ ""
      decide
    · show ([] : List SourceEntry).length ≤ 3
      decide
  · constructor
    · show (if _ ≠ [] then _ ++ _ ++ _ else _) ≠ ""
      apply assemble_ne
      intro hS
      by_cases hdb : needs_database_search q = true
      · have hdocs : (search_documents env st q 5).1 = [] := by
          by_contra hne
          rw [if_pos hdb, if_pos ⟨hdb, hne⟩] at hS
          have : (search_documents env st q 5).1 = [] := by
            have h1 := List.map_eq_nil_iff.mp hS
            have h2 := List.take_eq_nil_iff.mp h1
            rcases h2 with h2 | h2
            · exact absurd h2 (by decide)
            · exact h2
          exact hne this
        rw [if_pos hdb, hdocs, search_documents_state]
        exact generate_nonws env st q hist Hor
      · rw [if_neg hdb]
        exact generate_nonws env st q hist Hor
    · exact sources_length_le _ _

/-- C1 witness: with an empty oracle (which vacuously satisfies the content
condition) and no LLM, a concrete question gets a non-empty answer and at
most 3 sources. -/
theorem ask_answer_nonempty_witness :
    (∀ (coll : List IndexedDoc) (qr : String) (k : Nat) (hit : SearchHit),
      hit ∈ (⟨fun _ _ _ => [], none⟩ : Env).queryFn coll qr k → pyStrip hit.content ≠ "") ∧
    (ask ⟨fun _ _ _ => [], none⟩ ⟨[], []⟩ "Qui est Thomas Sankara ?" false []).1.answer ≠ "" :=
  ⟨fun _ _ _ _ h => absurd h (List.not_mem_nil _),
   (ask_answer_nonempty ⟨fun _ _ _ => [], none⟩ ⟨[], []⟩ "Qui est Thomas Sankara ?" false []
     (fun _ _ _ _ h => absurd h (List.not_mem_nil _))).1⟩

/-! ## Tracing `_fallback_answer` output back to document contents (toward C7) -/

theorem prefix_split {α : Type} {c : α} {b : List α} :
    ∀ (a p : List α), p <+: a ++ c :: b → c ∉ p → p <+: a := by
  intro a
  induction a with
  | nil =>
    intro p hp hc
    cases p with
    | nil => exact List.nil_prefix
    | cons x p' =>
      rw [List.nil_append, List.cons_prefix_cons] at hp
      obtain ⟨rfl, -⟩ := hp
      exact absurd (List.mem_cons_self _ _) hc
  | cons y a' ih =>
    intro p hp hc
    cases p with
    | nil => exact List.nil_prefix
    | cons x p' =>
      rw [List.cons_append, List.cons_prefix_cons] at hp
      obtain ⟨rfl, hp'⟩ := hp
      exact List.cons_prefix_cons.mpr
        ⟨rfl, ih p' hp' (fun hm => hc (List.mem_cons_of_mem _ hm))⟩

theorem infix_split {α : Type} {c : α} {b : List α} :
    ∀ (a p : List α), p <:+: a ++ c :: b → c ∉ p → p <:+: a ∨ p <:+: b := by
  intro a
  induction a with
  | nil =>
    intro p hp hc
    rw [List.nil_append] at hp
    obtain ⟨s, t, hst⟩ := hp
    cases s with
    | nil =>
      rw [List.nil_append] at hst
      cases p with
      | nil => exact Or.inl List.nil_infix
      | cons x p' =>
        rw [List.cons_append] at hst
        injection hst with h1 h2
        subst h1
        exact absurd (List.mem_cons_self _ _) hc
    | cons y s' =>
      rw [List.cons_append] at hst
      injection hst with h1 h2
      exact Or.inr ⟨s', t, h2⟩
  | cons z a' ih =>
    intro p hp hc
    obtain ⟨s, t, hst⟩ := hp
    cases s with
    | nil =>
      rw [List.nil_append] at hst
      cases p with
      | nil => exact Or.inl List.nil_infix
      | cons x p' =>
        rw [List.cons_append, List.cons_append] at hst
        injection hst with h1 h2
        subst h1
        have hpre : p' <+: a' ++ c :: b := ⟨t, h2⟩
        have := prefix_split a' p' hpre (fun hm => hc (List.mem_cons_of_mem _ hm))
        exact Or.inl (List.cons_prefix_cons.mpr ⟨rfl, this⟩).isInfix
    | cons y s' =>
      rw [List.cons_append] at hst
      injection hst with h1 h2
      rcases ih p ⟨s', t, h2⟩ hc with h | h
      · exact Or.inl (List.infix_cons h)
      · exact Or.inr h

/-- A space-free infix of a space-joined list of strings is an infix of one
of the strings (or empty). -/
theorem mem_of_infix_join {p : List Char} (hsp : ' ' ∉ p) :
    ∀ (xs : List String), p <:+: (pyJoin " " xs).data →
      p = [] ∨ ∃ x ∈ xs, p <:+: x.data := by
  intro xs
  induction xs with
  | nil =>
    intro h
    exact Or.inl (List.infix_nil.mp h)
  | cons x xs ih =>
    cases xs with
    | nil =>
      intro h
      exact Or.inr ⟨x, List.mem_cons_self _ _, h⟩
    | cons y ys =>
      intro h
      have hdata : (pyJoin " " (x :: y :: ys)).data =
          x.data ++ ' ' :: (pyJoin " " (y :: ys)).data := by
        show (x ++ " " ++ pyJoin " " (y :: ys)).data = _
        rw [String.data_append, String.data_append, List.append_assoc]
        rfl
      rw [hdata] at h
      rcases infix_split x.data p h hsp with h1 | h1
      · exact Or.inr ⟨x, List.mem_cons_self _ _, h1⟩
      · rcases ih h1 with h2 | ⟨z, hz, h3⟩
        · exact Or.inl h2
        · exact Or.inr ⟨z, List.mem_cons_of_mem _ hz, h3⟩

/-- Every piece produced by the sentence splitter is an infix of the input
(relative to the accumulated current piece). -/
theorem reSplitGo_mem :
    ∀ (l : List Char) (sk : Bool) (acc p : List Char),
      (sk = true → acc = []) → p ∈ reSplitGo sk acc l → p <:+: acc.reverse ++ l := by
  intro l
  induction l with
  | nil =>
    intro sk acc p _ hp
    have : p = acc.reverse := by simpa [reSplitGo] using hp
    subst this
    exact ⟨[], [], by simp⟩
  | cons c rest ih =>
    intro sk acc p hinv hp
    unfold reSplitGo at hp
    by_cases h1 : (sk && Char.isWhitespace c) = true
    · rw [if_pos h1] at hp
      have hacc : acc = [] := hinv (by
        have := (Bool.and_eq_true sk (Char.isWhitespace c)).mp h1
        exact this.1)
      subst hacc
      have := ih true [] p (fun _ => rfl) hp
      exact List.infix_cons (by simpa using this)
    · rw [if_neg h1] at hp
      by_cases h2 : (isPunct c && headIsWS rest) = true
      · rw [if_pos h2] at hp
        rcases List.mem_cons.mp hp with h3 | h3
        · subst h3
          exact ⟨[], c :: rest, rfl⟩
        · have := ih true [] p (fun _ => rfl) h3
          have h4 : p <:+: c :: rest := List.infix_cons (by simpa using this)
          exact h4.trans ⟨acc.reverse, [], by simp⟩
      · rw [if_neg h2] at hp
        have := ih false (c :: acc) p (by simp) hp
        simpa [List.append_assoc] using this

/-- Every sentence piece is an infix of the split string. -/
theorem reSplitSentences_piece_sub {s q : String} (hq : q ∈ reSplitSentences s) :
    q.data <:+: s.data := by
  unfold reSplitSentences at hq
  rcases List.mem_map.mp hq with ⟨l, hl, rfl⟩
  simpa using reSplitGo_mem s.data false [] l (by simp) hl

/-- Every sentence collected by `addSentences` was already collected or is
the strip of one of the supplied sentences. -/
theorem addSentences_mem :
    ∀ (sents combined : List String) (total : Nat) (s : String),
      s ∈ (addSentences combined total sents).1 →
      s ∈ combined ∨ ∃ x ∈ sents, s = pyStrip x := by
  intro sents
  induction sents with
  | nil =>
    intro combined total s h
    exact Or.inl (by simpa [addSentences] using h)
  | cons sent rest ih =>
    intro combined total s h
    unfold addSentences at h
    dsimp only at h
    by_cases h1 : pyLen (pyStrip sent) < 25
    · rw [if_pos h1] at h
      rcases ih combined total s h with h2 | ⟨x, hx, h3⟩
      · exact Or.inl h2
      · exact Or.inr ⟨x, List.mem_cons_of_mem _ hx, h3⟩
    · rw [if_neg h1] at h
      by_cases h2 : combined.contains (pyStrip sent) = true
      · rw [if_pos h2] at h
        rcases ih combined total s h with h3 | ⟨x, hx, h4⟩
        · exact Or.inl h3
        · exact Or.inr ⟨x, List.mem_cons_of_mem _ hx, h4⟩
      · rw [if_neg h2] at h
        by_cases h3 : 250 < total + pyWordCount (pyStrip sent)
        · rw [if_pos h3] at h
          exact Or.inl h
        · rw [if_neg h3] at h
          by_cases h4 : 4 ≤ (combined ++ [pyStrip sent]).length
          · rw [if_pos h4] at h
            rcases List.mem_append.mp h with h5 | h5
            · exact Or.inl h5
            · exact Or.inr ⟨sent, List.mem_cons_self _ _, by simpa using h5⟩
          · rw [if_neg h4] at h
            rcases ih _ _ s h with h5 | ⟨x, hx, h6⟩
            · rcases List.mem_append.mp h5 with h6 | h6
              · exact Or.inl h6
              · exact Or.inr ⟨sent, List.mem_cons_self _ _, by simpa using h6⟩
            · exact Or.inr ⟨x, List.mem_cons_of_mem _ hx, h6⟩

/-- Every sentence collected by `collectCombined` was already collected or is
an infix of the content of one of the walked documents. -/
theorem collectCombined_mem :
    ∀ (docs : List SearchHit) (combined : List String) (total : Nat) (s : String),
      s ∈ (collectCombined docs combined total).1 →
      s ∈ combined ∨ ∃ d ∈ docs, s.data <:+: d.content.data := by
  intro docs
  induction docs with
  | nil =>
    intro combined total s h
    exact Or.inl (by simpa [collectCombined] using h)
  | cons doc rest ih =>
    intro combined total s h
    unfold collectCombined at h
    dsimp only at h
    have hsent : ∀ x ∈ reSplitSentences (pyStrip doc.content),
        (pyStrip x).data <:+: doc.content.data := by
      intro x hx
      exact ((stripList_infix_self x.data).trans (reSplitSentences_piece_sub hx)).trans
        (stripList_infix_self doc.content.data)
    by_cases h1 : pyStrip doc.content = ""
    · rw [if_pos h1] at h
      rcases ih combined total s h with h2 | ⟨d, hd, h3⟩
      · exact Or.inl h2
      · exact Or.inr ⟨d, List.mem_cons_of_mem _ hd, h3⟩
    · rw [if_neg h1] at h
      by_cases h2 : (250 ≤ (addSentences combined total
          (reSplitSentences (pyStrip doc.content))).2 ||
          4 ≤ (addSentences combined total (reSplitSentences (pyStrip doc.content))).1.length) = true
      · rw [if_pos h2] at h
        rcases addSentences_mem _ _ _ s h with h3 | ⟨x, hx, rfl⟩
        · exact Or.inl h3
        · exact Or.inr ⟨doc, List.mem_cons_self _ _, hsent x hx⟩
      · rw [if_neg h2] at h
        rcases ih _ _ s h with h3 | ⟨d, hd, h4⟩
        · rcases addSentences_mem _ _ _ s h3 with h4 | ⟨x, hx, rfl⟩
          · exact Or.inl h4
          · exact Or.inr ⟨doc, List.mem_cons_self _ _, hsent x hx⟩
        · exact Or.inr ⟨d, List.mem_cons_of_mem _ hd, h4⟩

theorem append_head {a b : String} {c : Char} (hI : a.data.head? = some c) :
    (a ++ b).data.head? = some c := by
  cases hId : a.data with
  | nil => rw [hId] at hI; simp at hI
  | cons c0 t =>
    rw [hId] at hI
    have hc0 : c0 = c := by simpa using hI
    rw [← hc0]
    rw [String.data_append, hId, List.cons_append]
    rfl

theorem pyStrip_append_head {a s : String} {c : Char} (hI : a.data.head? = some c)
    (hw : ¬ c.isWhitespace = true) : (pyStrip (a ++ s)).data.head? = some c := by
  cases hId : a.data with
  | nil => rw [hId] at hI; simp at hI
  | cons c0 t =>
    rw [hId] at hI
    have hc0 : c0 = c := by simpa using hI
    rw [← hc0]
    show (stripList ((a ++ s).data)).head? = some c0
    rw [String.data_append, hId, List.cons_append]
    exact stripList_head?_eq (hc0 ▸ hw)

/-- A string whose first character is not `'D'` is not the template. -/
theorem head_ne_template {s : String} {c : Char} (hh : s.data.head? = some c)
    (hc : c ≠ 'D') : s ≠ noInfoTemplate := by
  intro h
  rw [h] at hh
  rw [show noInfoTemplate.data.head? = some 'D' from by decide] at hh
  exact hc (show 'D' = c by simpa using hh).symm

/-- The introduction chosen by `_fallback_answer` is one of three constants. -/
theorem introFor_cases (q : String) :
    introFor q = "" ∨ introFor q = "Voici ce que je peux vous dire : " ∨
      introFor q = "Concernant la culture burkinabè : " := by
  unfold introFor
  dsimp only
  split
  · exact Or.inr (Or.inl rfl)
  · split
    · exact Or.inr (Or.inr rfl)
    · exact Or.inl rfl

/-- If the apology prefix occurred inside the joined collected sentences, it
would occur inside one of the walked documents' contents. -/
theorem pre_infix_contra (first : SearchHit) (rest : List SearchHit)
    (H : ∀ d ∈ first :: rest, ¬ ("Désolé".data <:+: d.content.data))
    (hpreJ : ("Désolé" : String).data <:+:
      (pyJoin " " (collectCombined ((first :: rest).take 3) [] 0).1).data) : False := by
  rcases mem_of_infix_join (by decide) _ hpreJ with h0 | ⟨x, hx, hxinf⟩
  · exact (by decide : ("Désolé" : String).data ≠ []) h0
  · rcases collectCombined_mem _ _ _ x hx with h0 | ⟨d, hd, hdinf⟩
    · exact absurd h0 (List.not_mem_nil x)
    · exact H d (List.mem_of_mem_take hd) (hxinf.trans hdinf)

/-- `_fallback_answer` only examines the first three context documents. -/
theorem fallback_take3 (q : String) (cds : List SearchHit) :
    fallback_answer cds q = fallback_answer (cds.take 3) q := by
  cases cds with
  | nil => rfl
  | cons f r =>
    show fallback_answer (f :: r) q = fallback_answer (f :: r.take 2) q
    unfold fallback_answer
    dsimp only
    have hbd : (f :: r.take 2).take 3 = (f :: r).take 3 := by
      show f :: (r.take 2).take 2 = f :: r.take 2
      rw [List.take_take, Nat.min_self]
    rw [hbd]

/-- Crafted content for the C7 counterexample: the apology's two sentences
with a doubled period, which the sentence splitter and joiner reassemble
into exactly the template. -/
def craftedContent : String :=
  "Désolé, je n'ai pas trouvé d'information sur ce sujet dans ma base de données.. Posez-moi des questions sur la culture, l'histoire, les traditions ou l'architecture du Burkina Faso."

/-- C7 counterexample: a non-empty context list with a crafted document
content makes `_fallback_answer` return exactly the fixed template, so the
template is not returned *exactly when* the context is empty. -/
theorem fallback_template_counterexample :
    fallback_answer [⟨craftedContent, ⟨"titre", "source", "culture"⟩⟩] "" = noInfoTemplate ∧
    [(⟨craftedContent, ⟨"titre", "source", "culture"⟩⟩ : SearchHit)] ≠ [] := by
  constructor
  · decide
  · decide

/-- C7 (amended): `_fallback_answer` returns the fixed no-information
template when the context list is empty; when no supplied document content
contains the apology prefix "Désolé", it returns the template *exactly*
when the context list is empty; and the answer is always computed from at
most the first three context documents. -/
theorem fallback_template_iff :
    ∀ (q : String) (cds : List SearchHit),
      (∀ d ∈ cds, ¬ (("Désolé" : String).data <:+: d.content.data)) →
      ((fallback_answer cds q = noInfoTemplate ↔ cds = []) ∧
        fallback_answer cds q = fallback_answer (cds.take 3) q) := by
  intro q cds H
  refine ⟨⟨?_, fun h => by subst h; rfl⟩, fallback_take3 q cds⟩
  intro heq
  by_contra hne
  obtain ⟨first, rest, rfl⟩ := List.exists_cons_of_ne_nil hne
  have Hfirst := H first (List.mem_cons_self _ _)
  unfold fallback_answer at heq
  dsimp only at heq
  by_cases hcomb : (collectCombined ((first :: rest).take 3) [] 0).1 = []
  · rw [if_pos hcomb] at heq
    rcases introFor_cases q with hI | hI | hI
    · have hIdata : (introFor q).data = [] := by rw [hI]
      by_cases h400 : 400 < pyLen first.content
      · rw [if_pos h400] at heq
        have hdata := congrArg String.data heq
        rw [String.data_append, String.data_append, hIdata, List.nil_append] at hdata
        have hlen := congrArg List.length hdata
        rw [List.length_append, show ("..." : String).data.length = 3 from by decide,
          show noInfoTemplate.data.length = 180 from by decide] at hlen
        have hXpre : ("Désolé" : String).data <+:
            (pyStrip (pyTake first.content 400)).data := by
          have hbig : ("Désolé" : String).data <+:
              (pyStrip (pyTake first.content 400)).data ++ ("..." : String).data := by
            rw [hdata]
            decide
          refine List.prefix_of_prefix_length_le hbig (List.prefix_append _ _) ?_
          rw [show ("Désolé" : String).data.length = 6 from by decide]
          omega
        have hXinf : (pyStrip (pyTake first.content 400)).data <:+: first.content.data :=
          (stripList_infix_self _).trans ( List.take_prefix 400 first.content.data).isInfix
        exact Hfirst (hXpre.isInfix.trans hXinf)
      · rw [if_neg h400] at heq
        have hdata := congrArg String.data heq
        rw [String.data_append, hIdata, List.nil_append] at hdata
        apply Hfirst
        rw [hdata]
        exact (show ("Désolé" : String).data <+: noInfoTemplate.data from by decide).isInfix
    · have hIhead : (introFor q).data.head? = some 'V' := by rw [hI]; decide
      by_cases h400 : 400 < pyLen first.content
      · rw [if_pos h400] at heq
        exact head_ne_template (append_head (append_head hIhead)) (by decide) heq
      · rw [if_neg h400] at heq
        exact head_ne_template (append_head hIhead) (by decide) heq
    · have hIhead : (introFor q).data.head? = some 'C' := by rw [hI]; decide
      by_cases h400 : 400 < pyLen first.content
      · rw [if_pos h400] at heq
        exact head_ne_template (append_head (append_head hIhead)) (by decide) heq
      · rw [if_neg h400] at heq
        exact head_ne_template (append_head hIhead) (by decide) heq
  · rw [if_neg hcomb] at heq
    set A := pyStrip (introFor q ++
      pyJoin " " (collectCombined ((first :: rest).take 3) [] 0).1) with hA
    by_cases hend : endsWithPunct A = true
    · rw [if_pos hend] at heq
      by_cases h600 : 600 < pyLen A
      · rw [if_pos h600] at heq
        have hlen := congrArg (fun s => s.data.length) heq
        dsimp only at hlen
        rw [String.data_append, List.length_append] at hlen
        have h1 : (pyTake A 597).data.length = min 597 A.data.length := by
          show (A.data.take 597).length = _
          rw [List.length_take]
        rw [h1, show ("..." : String).data.length = 3 from by decide,
          show noInfoTemplate.data.length = 180 from by decide] at hlen
        have h600' : 600 < A.data.length := h600
        omega
      · rw [if_neg h600] at heq
        have hApre : ("Désolé" : String).data <+: A.data := by
          rw [heq]
          decide
        rcases introFor_cases q with hI | hI | hI
        · have hIdata : (introFor q).data = [] := by rw [hI]
          have hAinf : A.data <:+:
              (pyJoin " " (collectCombined ((first :: rest).take 3) [] 0).1).data := by
            rw [hA]
            show stripList ((introFor q ++
              pyJoin " " (collectCombined ((first :: rest).take 3) [] 0).1).data) <:+: _
            rw [String.data_append, hIdata, List.nil_append]
            exact stripList_infix_self _
          exact pre_infix_contra first rest H (hApre.isInfix.trans hAinf)
        · have hIhead : (introFor q).data.head? = some 'V' := by rw [hI]; decide
          have hAhead : A.data.head? = some 'V' := by
            rw [hA]; exact pyStrip_append_head hIhead (by decide)
          exact head_ne_template hAhead (by decide) heq
        · have hIhead : (introFor q).data.head? = some 'C' := by rw [hI]; decide
          have hAhead : A.data.head? = some 'C' := by
            rw [hA]; exact pyStrip_append_head hIhead (by decide)
          exact head_ne_template hAhead (by decide) heq
    · rw [if_neg hend] at heq
      by_cases h600 : 600 < pyLen (A ++ ".")
      · rw [if_pos h600] at heq
        have hlen := congrArg (fun s => s.data.length) heq
        dsimp only at hlen
        rw [String.data_append, List.length_append] at hlen
        have h1 : (pyTake (A ++ ".") 597).data.length = min 597 (A ++ ".").data.length := by
          show ((A ++ ".").data.take 597).length = _
          rw [List.length_take]
        rw [h1, show ("..." : String).data.length = 3 from by decide,
          show noInfoTemplate.data.length = 180 from by decide] at hlen
        have h600' : 600 < (A ++ ".").data.length := h600
        omega
      · rw [if_neg h600] at heq
        have hdata := congrArg String.data heq
        rw [String.data_append] at hdata
        have hlen := congrArg List.length hdata
        rw [List.length_append, show ("." : String).data.length = 1 from by decide,
          show noInfoTemplate.data.length = 180 from by decide] at hlen
        have hApre : ("Désolé" : String).data <+: A.data := by
          have hbig : ("Désolé" : String).data <+: A.data ++ ("." : String).data := by
            rw [hdata]
            decide
          refine List.prefix_of_prefix_length_le hbig (List.prefix_append _ _) ?_
          rw [show ("Désolé" : String).data.length = 6 from by decide]
          omega
        rcases introFor_cases q with hI | hI | hI
        · have hIdata : (introFor q).data = [] := by rw [hI]
          have hAinf : A.data <:+:
              (pyJoin " " (collectCombined ((first :: rest).take 3) [] 0).1).data := by
            rw [hA]
            show stripList ((introFor q ++
              pyJoin " " (collectCombined ((first :: rest).take 3) [] 0).1).data) <:+: _
            rw [String.data_append, hIdata, List.nil_append]
            exact stripList_infix_self _
          exact pre_infix_contra first rest H (hApre.isInfix.trans hAinf)
        · have hIhead : (introFor q).data.head? = some 'V' := by rw [hI]; decide
          have hAhead : A.data.head? = some 'V' := by
            rw [hA]; exact pyStrip_append_head hIhead (by decide)
          exact head_ne_template (append_head hAhead) (by decide) heq
        · have hIhead : (introFor q).data.head? = some 'C' := by rw [hI]; decide
          have hAhead : A.data.head? = some 'C' := by
            rw [hA]; exact pyStrip_append_head hIhead (by decide)
          exact head_ne_template (append_head hAhead) (by decide) heq

/-- C7 witness for the amended theorem: an ordinary culture document (which
does not contain "Désolé") yields a non-template answer from a non-empty
context. -/
theorem fallback_template_iff_witness :
    (∀ d ∈ [(⟨"Le balafon est un instrument de musique traditionnel du Burkina Faso très apprécié.",
        ⟨"t", "s", "culture"⟩⟩ : SearchHit)],
      ¬ (("Désolé" : String).data <:+: d.content.data)) ∧
    ((fallback_answer [⟨"Le balafon est un instrument de musique traditionnel du Burkina Faso très apprécié.",
        ⟨"t", "s", "culture"⟩⟩] "" = noInfoTemplate ↔
      [(⟨"Le balafon est un instrument de musique traditionnel du Burkina Faso très apprécié.",
        ⟨"t", "s", "culture"⟩⟩ : SearchHit)] = []) ∧
     fallback_answer [⟨"Le balafon est un instrument de musique traditionnel du Burkina Faso très apprécié.",
        ⟨"t", "s", "culture"⟩⟩] "" =
       fallback_answer ([(⟨"Le balafon est un instrument de musique traditionnel du Burkina Faso très apprécié.",
        ⟨"t", "s", "culture"⟩⟩ : SearchHit)].take 3) "") :=
  ⟨by decide,
   fallback_template_iff ""
     [⟨"Le balafon est un instrument de musique traditionnel du Burkina Faso très apprécié.",
       ⟨"t", "s", "culture"⟩⟩] (by decide)⟩

end BurkinaHeritage
